import Mathlib

/-!
Shallow embedding of the inferential core of `src/streamlit_app.py`
(DIVEBillboards-code/DEMO-Dashboard-BLS): the column-type classifier
`detect_survey_columns`, the impact-score computation
`calculate_impact_score`, and the Overview-tab survey-counts block.

Modelling conventions:
* A pandas cell is `Option _`; `none` is NaN / missing.
* Python floats are embedded as `ℚ` (all arithmetic in the source on the
  relevant paths is exact on rationals); `float.is_integer()` is `x.den = 1`.
* A pandas exception (e.g. `KeyError` on a missing column, `TypeError`
  on aggregating a non-numeric column) is modelled as an `Option.none`
  result of the whole operation.
-/

namespace BLSDash

/-- A cell value: a float or a string (pandas object). -/
inductive Val where
  | num : ℚ → Val
  | str : String → Val
deriving DecidableEq, Repr

/-- Column payload together with its pandas dtype:
`nums` is a numeric dtype, `strs` an object dtype, `cat` an ordered
categorical dtype carrying its category list (in declared order). -/
inductive ColData where
  | nums : List (Option ℚ) → ColData
  | strs : List (Option String) → ColData
  | cat : List (Option Val) → List Val → ColData
deriving DecidableEq, Repr

/-- A named column. -/
structure Col where
  name : String
  data : ColData
deriving DecidableEq, Repr

/-- A dataframe: `nrows` is `len(df)`; columns are in order. -/
structure DataFrame where
  nrows : ℕ
  cols : List Col
deriving DecidableEq, Repr

/-- ASCII lower-casing of one character (`str.lower` restricted to the
ASCII range, which covers every lexicon token and name test below). -/
def lowerChar (c : Char) : Char :=
  if 65 ≤ c.toNat ∧ c.toNat ≤ 90 then Char.ofNat (c.toNat + 32) else c

/-- `s.lower()` (ASCII range). -/
def strToLower (s : String) : String :=
  ⟨s.data.map lowerChar⟩

/-- `" ".join(l)`. -/
def joinSpace (l : List String) : String :=
  ⟨List.intercalate " ".data (l.map String.data)⟩

/-- Python `needle in hay` substring test. -/
def containsSub (hay needle : String) : Bool :=
  hay.data.tails.any (fun t => needle.data.isPrefixOf t)

/-- Distinct elements in first-appearance order (pandas `Series.unique`). -/
def firstDedupAux [DecidableEq α] (seen : List α) : List α → List α
  | [] => []
  | a :: l => if a ∈ seen then firstDedupAux seen l else a :: firstDedupAux (a :: seen) l

/-- Distinct elements in first-appearance order (pandas `Series.unique`). -/
def firstDedup [DecidableEq α] (l : List α) : List α :=
  firstDedupAux [] l

/-- `series.min()` (on a nonempty series; `none` = NaN on an empty one). -/
def listMin : List ℚ → Option ℚ
  | [] => none
  | x :: l => match listMin l with
    | none => some x
    | some m => some (min x m)

/-- `series.max()` (on a nonempty series; `none` = NaN on an empty one). -/
def listMax : List ℚ → Option ℚ
  | [] => none
  | x :: l => match listMax l with
    | none => some x
    | some m => some (max x m)

/-- The cells of a column, unified into `Option Val`. -/
def dataVals : ColData → List (Option Val)
  | .nums vs => vs.map (Option.map Val.num)
  | .strs vs => vs.map (Option.map Val.str)
  | .cat vs _ => vs

/-- `df[col].nunique()`: number of distinct non-null values. -/
def nuniqueData (d : ColData) : ℕ :=
  (firstDedup ((dataVals d).filterMap id)).length

/-- `df[c]` as an `Option` (a missing column raises `KeyError`). -/
def getCol (df : DataFrame) (c : String) : Option ColData :=
  (df.cols.find? (fun k => k.name == c)).map Col.data

/-- `df[c] = d`: replace the column named `c` in place, or append it. -/
def setCol (df : DataFrame) (c : String) (d : ColData) : DataFrame :=
  if df.cols.any (fun k => k.name == c) then
    ⟨df.nrows, df.cols.map (fun k => if k.name == c then ⟨k.name, d⟩ else k)⟩
  else ⟨df.nrows, df.cols ++ [⟨c, d⟩]⟩

/-- `pd.Categorical(values, categories, ordered=True)`:
values outside the category list become NaN. -/
def toCategorical (vals : List (Option Val)) (cats : List Val) : ColData :=
  .cat (vals.map (fun v => v.bind (fun x => if x ∈ cats then some x else none))) cats

/-- Declared category order of an ordered-categorical column. -/
def catOrder : ColData → Option (List Val)
  | .cat _ cats => some cats
  | _ => none

/-! ## Column classifier (`detect_survey_columns`) -/

/-- The classifier's verdict for one column. -/
inductive Tag where
  | skip | numeric | categorical | ordinal
deriving DecidableEq, Repr

/-- The fixed lexicon of ordinal cue tokens in the object-column branch. -/
def ordinal_indicators : List String :=
  ["muy", "negativa", "positiva", "nunca", "siempre", "frecuente",
   "low", "medium", "high", "yes", "no"]

/-- The hardcoded brand-perception column name. -/
def brand_image_col : String :=
  "[Brand image] Este es un anuncio de Coca Cola. ¿Qué imagen te da de Coca Cola?"

/-- The fixed 5-point category order forced onto `brand_image_col`. -/
def brand_categories : List Val :=
  [.str "Muy negativa", .str "Negativa", .str "Neutra", .str "Positiva", .str "Muy positiva"]

/-- The hardcoded attribution column name. -/
def attribution_col : String :=
  "[Attribution] Según tu opinión, este anuncio es para:"

/-- The numeric-branch range test
`series.min() >= 0 and series.max() <= 10 and series.apply(is_integer).all()`
(NaN comparisons on an empty series are false). -/
def rangeTest (series : List ℚ) (allInt : Bool) : Bool :=
  match listMin series, listMax series with
  | some mn, some mx => decide (0 ≤ mn) && decide (mx ≤ 10) && allInt
  | _, _ => false

/-- One iteration of the `for col in df.columns` loop of
`detect_survey_columns`: returns the (possibly re-encoded) column and
its classification tag. -/
def classifyCol (nrows : ℕ) (c : Col) : Col × Tag :=
  if containsSub (strToLower c.name) "id" || decide (nrows < 2 * nuniqueData c.data) then
    (c, .skip)
  else
    match c.data with
    | .nums vs =>
      let series := vs.filterMap id
      let nu := (firstDedup series).length
      let allInt := series.all (fun x => x.den == 1)
      if decide (20 < nu) && !allInt then (c, .numeric)
      else if decide (nu ≤ 10) || rangeTest series allInt then
        let cats := ((firstDedup series).insertionSort (· ≤ ·)).map Val.num
        ({ c with data := toCategorical (vs.map (Option.map Val.num)) cats }, .ordinal)
      else (c, .numeric)
    | .strs vs =>
      let sample_vals := firstDedup (vs.filterMap id)
      let joined := joinSpace (sample_vals.map strToLower)
      if decide (sample_vals.length ≤ 10)
          && ordinal_indicators.any (fun ind => containsSub joined (strToLower ind)) then
        ({ c with data := toCategorical (vs.map (Option.map Val.str))
                    (sample_vals.map Val.str) }, .ordinal)
      else (c, .categorical)
    | .cat _ _ => (c, .skip)

/-- Output of `detect_survey_columns` (the mutated dataframe plus the
three classification lists). -/
structure DetectResult where
  df : DataFrame
  numeric_cols : List String
  categorical_cols : List String
  ordinal_cols : List String
deriving Repr

/-- The main loop of `detect_survey_columns` over all columns, before
the two hardcoded overrides. -/
def detectLoop (df : DataFrame) : DetectResult :=
  let step := df.cols.map (classifyCol df.nrows)
  { df := ⟨df.nrows, step.map Prod.fst⟩
    numeric_cols := (step.filter (fun p => p.2 == Tag.numeric)).map (fun p => p.1.name)
    categorical_cols := (step.filter (fun p => p.2 == Tag.categorical)).map (fun p => p.1.name)
    ordinal_cols := (step.filter (fun p => p.2 == Tag.ordinal)).map (fun p => p.1.name) }

/-- The first hardcoded post-pass override: if the brand-perception
column ended up categorical, move it to ordinal and re-encode it over the
fixed 5-point category order. -/
def applyBrandOverride (r : DetectResult) : DetectResult :=
  if brand_image_col ∈ r.categorical_cols then
    { df := setCol r.df brand_image_col
        (toCategorical (dataVals ((getCol r.df brand_image_col).getD (.strs [])))
          brand_categories)
      numeric_cols := r.numeric_cols
      categorical_cols := r.categorical_cols.erase brand_image_col
      ordinal_cols := r.ordinal_cols ++ [brand_image_col] }
  else r

/-- The second hardcoded post-pass override: if the attribution column
ended up ordinal, move it to categorical. -/
def applyAttributionOverride (r : DetectResult) : DetectResult :=
  if attribution_col ∈ r.ordinal_cols then
    { r with
      ordinal_cols := r.ordinal_cols.erase attribution_col
      categorical_cols := r.categorical_cols ++ [attribution_col] }
  else r

/-- The two hardcoded post-pass overrides of `detect_survey_columns`,
in source order. -/
def applyOverrides (r : DetectResult) : DetectResult :=
  applyAttributionOverride (applyBrandOverride r)

/-- `detect_survey_columns(df)`. -/
def detect_survey_columns (df : DataFrame) : DetectResult :=
  applyOverrides (detectLoop df)

/-! ## Impact score (`calculate_impact_score`) -/

/-- `x in ['Sí, una vez', 'Sí, varias veces']` on a cell
(NaN and numeric cells compare unequal, hence `Control`). -/
def exposedVal (v : Option Val) : Bool :=
  v == some (.str "Sí, una vez") || v == some (.str "Sí, varias veces")

/-- Row-wise group assignment from the exposure column
(`true` = `'Exposed'`, `false` = `'Control'`). -/
def groupsOf (expVals : List (Option Val)) : List Bool :=
  expVals.map exposedVal

/-- Non-null KPI values of the Control rows. -/
def controlVals (groups : List Bool) (kvals : List (Option ℚ)) : List ℚ :=
  ((groups.zip kvals).filter (fun p => !p.1)).filterMap Prod.snd

/-- `df[df['Group'] == 'Control'][kpi_col].mean()`:
the NaN-skipping mean; `none` is the NaN produced on an empty group. -/
def controlMean (groups : List Bool) (kvals : List (Option ℚ)) : Option ℚ :=
  let c := controlVals groups kvals
  if c.isEmpty then none else some (c.sum / (c.length : ℚ))

/-- `exposed_df['Uplift'].dropna()`: the uplift `kpi − control_avg` per
exposed row; a NaN KPI cell or a NaN `control_avg` produces a NaN uplift,
which `dropna` removes. -/
def upliftList (groups : List Bool) (kvals : List (Option ℚ)) : List ℚ :=
  match controlMean groups kvals with
  | none => []
  | some m => ((groups.zip kvals).filter (fun p => p.1)).filterMap
      (fun p => p.2.map (fun k => k - m))

/-- Mean of a list of rationals (only ever applied to lists that are
provably nonempty on the code path; the `0` on `[]` is unreachable). -/
def meanD (l : List ℚ) : ℚ :=
  l.sum / (l.length : ℚ)

/-- `Series.quantile(q)` with the default linear interpolation:
on the ascending sorted values `s` of length `n`, the value at fractional
position `q·(n−1)`. -/
def quantile (q : ℚ) (xs : List ℚ) : ℚ :=
  let s := xs.insertionSort (· ≤ ·)
  let pos : ℚ := q * ((s.length : ℚ) - 1)
  let i : ℕ := (Int.floor pos).toNat
  match s.get? i, s.get? (i + 1) with
  | some a, some b => a + (pos - (i : ℚ)) * (b - a)
  | some a, none => a
  | none, _ => 0

/-- `uplifts[uplifts >= uplifts.quantile(0.75)].mean()`. -/
def x_i_top25 (uplifts : List ℚ) : ℚ :=
  meanD (uplifts.filter (fun u => quantile (3/4) uplifts ≤ u))

/-- `uplifts[uplifts <= uplifts.quantile(0.10)].mean()`. -/
def x_i_flop10 (uplifts : List ℚ) : ℚ :=
  meanD (uplifts.filter (fun u => u ≤ quantile (1/10) uplifts))

/-- `denominator = x_i_top25 - x_i_flop10`. -/
def denominatorOf (uplifts : List ℚ) : ℚ :=
  x_i_top25 uplifts - x_i_flop10 uplifts

/-- Steps 4–6 of `calculate_impact_score` on the dropna'd uplift list:
benchmarks, zero-denominator check, and the final score (`n = 1` KPIs). -/
def impactCore (uplifts : List ℚ) : Option ℚ × Option String :=
  if uplifts.isEmpty then
    (none, some "No data available for the exposed group.")
  else if denominatorOf uplifts = 0 then
    (none, some "Denominator (x_i_top25 - x_i_flop10) is zero, cannot calculate IS.")
  else
    (some (((uplifts.map
        (fun u => (u - x_i_flop10 uplifts) / denominatorOf uplifts)).sum / 1) * 100), none)

/-- The derived `'Group'` column written into the dataframe. -/
def groupColumn (groups : List Bool) : ColData :=
  .strs (groups.map (fun b => some (if b then "Exposed" else "Control")))

/-- `calculate_impact_score(df, ad_recall_col, kpi_col)`.
Returns the post-call state of `df` (the function writes the derived
`'Group'` column into its argument) together with `(score, error)`.
The outer `none` models a raised exception: a missing column, or a KPI
column whose dtype pandas cannot aggregate arithmetically. -/
def calculate_impact_score (df : DataFrame) (ad_recall_col kpi_col : String) :
    Option (DataFrame × (Option ℚ × Option String)) :=
  match getCol df ad_recall_col with
  | none => none
  | some ed =>
    match getCol (setCol df "Group" (groupColumn (groupsOf (dataVals ed)))) kpi_col with
    | some (.nums kvals) =>
      some (setCol df "Group" (groupColumn (groupsOf (dataVals ed))),
        impactCore (upliftList (groupsOf (dataVals ed)) kvals))
    | some _ => none
    | none => none

/-! ## Overview-tab survey counts block (lines 264–273) -/

/-- Whether a column has categorical dtype (`dtype.name == "category"`). -/
def isCatData : ColData → Bool
  | .cat _ _ => true
  | _ => false

/-- The group keys of `groupby(survey_col, observed=True)`, in the order
pandas emits them: category order restricted to observed categories for a
categorical key, ascending sorted distinct values otherwise. -/
def groupKeys (sd : ColData) : List Val :=
  match sd with
  | .cat vs cats => cats.filter (fun c => some c ∈ vs)
  | .nums vs => ((firstDedup (vs.filterMap id)).insertionSort (· ≤ ·)).map Val.num
  | .strs vs => ((firstDedup (vs.filterMap id)).insertionSort
      (fun a b => ¬ b < a)).map Val.str

/-- `groupby(survey_col, observed=True)[weight_col].sum()`:
per observed key, the NaN-skipping sum of the weight column. -/
def groupbySum (sd : ColData) (wvals : List (Option ℚ)) : List (Val × ℚ) :=
  (groupKeys sd).map (fun k =>
    (k, ((((dataVals sd).zip wvals).filter (fun p => p.1 == some k)).filterMap
          Prod.snd).sum))

/-- `series.value_counts()`: occurrence counts sorted by count descending
(stably, from category order for a categorical — where all categories
appear, zero counts included — and from appearance order otherwise). -/
def valueCounts (sd : ColData) : List (Val × ℚ) :=
  let initKeys : List Val :=
    match sd with
    | .cat _ cats => cats
    | _ => (firstDedup ((dataVals sd).filterMap id))
  let entries := initKeys.map (fun k => (k, ((dataVals sd).count (some k) : ℚ)))
  entries.insertionSort (fun p q => q.2 ≤ p.2)

/-- `counts.sort_values(survey_col)` after re-encoding the key column as
an ordered categorical over `cats`: a stable sort by position in `cats`
(keys outside `cats` become NaN and sort last, as `indexOf` = length). -/
def sortByCatOrder (cats : List Val) (entries : List (Val × ℚ)) : List (Val × ℚ) :=
  entries.insertionSort (fun p q => cats.indexOf p.1 ≤ cats.indexOf q.1)

/-- The Overview-tab survey counts block: weighted or plain counts of the
selected survey column, re-sorted by declared category order when the
column is ordinal and categorical. `none` models a pandas exception
(missing survey column, or a weight column pandas cannot sum). -/
def overview_survey_counts (df : DataFrame) (survey_col : String)
    (weight_col : Option String) (ordinal_cols : List String) :
    Option (List (Val × ℚ)) :=
  match getCol df survey_col with
  | none => none
  | some sd =>
    let base? : Option (List (Val × ℚ)) :=
      match weight_col with
      | some w =>
        match getCol df w with
        | some (.nums wvals) => some (groupbySum sd wvals)
        | some _ => none
        | none => some (valueCounts sd)
      | none => some (valueCounts sd)
    base?.map (fun base =>
      if survey_col ∈ ordinal_cols && isCatData sd then
        sortByCatOrder ((catOrder sd).getD []) base
      else base)

/-! ## Frame lemmas for `getCol` / `setCol` -/

theorem find?_replace_self (l : List Col) (c : String) (d : ColData)
    (h : ∃ k ∈ l, k.name = c) :
    (l.map (fun k => if k.name == c then Col.mk k.name d else k)).find?
        (fun k => k.name == c) = some (Col.mk c d) := by
  induction l with
  | nil => simp at h
  | cons a l ih =>
    by_cases ha : a.name = c
    · simp [List.find?_cons, ha, -List.find?_map]
    · have h' : ∃ k ∈ l, k.name = c := by
        rcases h with ⟨k, hk, hkc⟩
        rcases List.mem_cons.mp hk with rfl | hk
        · exact absurd hkc ha
        · exact ⟨k, hk, hkc⟩
      simpa [List.find?_cons, ha, -List.find?_map] using ih h'

theorem find?_replace_ne (l : List Col) (c c' : String) (d : ColData)
    (h : c ≠ c') :
    ((l.map (fun k => if k.name == c' then Col.mk k.name d else k)).find?
        (fun k => k.name == c)).map Col.data
      = (l.find? (fun k => k.name == c)).map Col.data := by
  induction l with
  | nil => simp
  | cons a l ih =>
    have hcc : ¬ c' = c := fun e => h e.symm
    by_cases ha : a.name = c'
    · have hac : ¬ a.name = c := fun hc => h (hc ▸ ha)
      simpa [List.find?_cons, ha, hac, hcc, -List.find?_map] using ih
    · by_cases hac : a.name = c
      · simp [List.find?_cons, ha, hac, h, -List.find?_map]
      · simpa [List.find?_cons, ha, hac, -List.find?_map] using ih

theorem find?_append_single_none (l : List Col) (c : String) (d : ColData)
    (h : ∀ k ∈ l, (k.name == c) = false) :
    (l ++ [Col.mk c d]).find? (fun k => k.name == c) = some (Col.mk c d) := by
  induction l with
  | nil => simp [List.find?_cons]
  | cons a l ih =>
    have ha : (a.name == c) = false := h a (by simp)
    simp only [List.cons_append, List.find?_cons, ha]
    exact ih (fun k hk => h k (by simp [hk]))

theorem find?_append_single_ne (l : List Col) (c c' : String) (d : ColData)
    (h : c ≠ c') :
    (l ++ [Col.mk c' d]).find? (fun k => k.name == c)
      = l.find? (fun k => k.name == c) := by
  induction l with
  | nil => simp [List.find?_cons, h.symm]
  | cons a l ih =>
    by_cases ha : a.name = c
    · simp [List.find?_cons, ha]
    · simp [List.find?_cons, ha, ih]

theorem getCol_setCol_self (df : DataFrame) (c : String) (d : ColData) :
    getCol (setCol df c d) c = some d := by
  unfold getCol setCol
  split
  · rename_i h
    simp only [List.any_eq_true, beq_iff_eq] at h
    rw [find?_replace_self df.cols c d h]
    rfl
  · rename_i h
    simp only [List.any_eq_true, not_exists, not_and, Bool.not_eq_true] at h
    rw [show (⟨df.nrows, df.cols ++ [⟨c, d⟩]⟩ : DataFrame).cols = df.cols ++ [Col.mk c d] from rfl,
      find?_append_single_none df.cols c d (fun k hk => by simpa using h k hk)]
    rfl

theorem getCol_setCol_ne (df : DataFrame) (c c' : String) (d : ColData)
    (h : c ≠ c') : getCol (setCol df c' d) c = getCol df c := by
  unfold getCol setCol
  split
  · exact find?_replace_ne df.cols c c' d h
  · rw [show (⟨df.nrows, df.cols ++ [⟨c', d⟩]⟩ : DataFrame).cols = df.cols ++ [Col.mk c' d]
      from rfl, find?_append_single_ne df.cols c c' d h]

/-! ## Path lemmas for `calculate_impact_score` -/

theorem calculate_impact_score_eq (df : DataFrame) (a k : String) (ed : ColData)
    (kv : List (Option ℚ)) (ha : getCol df a = some ed) (hk : k ≠ "Group")
    (hkv : getCol df k = some (.nums kv)) :
    calculate_impact_score df a k =
      some (setCol df "Group" (groupColumn (groupsOf (dataVals ed))),
        impactCore (upliftList (groupsOf (dataVals ed)) kv)) := by
  have hkv' : getCol (setCol df "Group" (groupColumn (groupsOf (dataVals ed)))) k
      = some (.nums kv) := by
    rw [getCol_setCol_ne df k "Group" (groupColumn (groupsOf (dataVals ed))) hk]
    exact hkv
  simp only [calculate_impact_score, ha, hkv']

theorem upliftList_eq_nil_of_no_exposed (groups : List Bool) (kv : List (Option ℚ))
    (h : ∀ b ∈ groups, b = false) : upliftList groups kv = [] := by
  unfold upliftList
  have hf : (groups.zip kv).filter (fun p => p.1) = [] :=
    List.filter_eq_nil_iff.mpr (fun p hp => by
      simp only [Bool.not_eq_true]
      exact h p.1 (List.of_mem_zip hp).1)
  cases controlMean groups kv <;> simp [hf]

theorem controlMean_eq_none_of_all_exposed (groups : List Bool) (kv : List (Option ℚ))
    (h : ∀ b ∈ groups, b = true) : controlMean groups kv = none := by
  unfold controlMean controlVals
  have hf : (groups.zip kv).filter (fun p => !p.1) = [] :=
    List.filter_eq_nil_iff.mpr (fun p hp => by
      simp [h p.1 (List.of_mem_zip hp).1])
  simp [hf]

theorem upliftList_eq_nil_of_all_exposed (groups : List Bool) (kv : List (Option ℚ))
    (h : ∀ b ∈ groups, b = true) : upliftList groups kv = [] := by
  unfold upliftList
  rw [controlMean_eq_none_of_all_exposed groups kv h]

/-! ## Structural lemmas for `detect_survey_columns` -/

theorem classifyCol_name (n : ℕ) (c : Col) : (classifyCol n c).1.name = c.name := by
  obtain ⟨nm, d⟩ := c
  unfold classifyCol
  split
  · rfl
  · cases d <;> dsimp only <;> split_ifs <;> rfl

theorem brand_ne_attribution : brand_image_col ≠ attribution_col := by decide

theorem mem_detectLoop_numeric_iff (df : DataFrame) (x : String) :
    x ∈ (detectLoop df).numeric_cols ↔
      ∃ c ∈ df.cols, (classifyCol df.nrows c).2 = Tag.numeric ∧
        (classifyCol df.nrows c).1.name = x := by
  simp only [detectLoop, List.mem_map, List.mem_filter, beq_iff_eq]
  constructor
  · rintro ⟨p, ⟨⟨c, hc, rfl⟩, ht⟩, rfl⟩
    exact ⟨c, hc, ht, rfl⟩
  · rintro ⟨c, hc, ht, hn⟩
    exact ⟨classifyCol df.nrows c, ⟨⟨c, hc, rfl⟩, ht⟩, hn⟩

theorem mem_detectLoop_categorical_iff (df : DataFrame) (x : String) :
    x ∈ (detectLoop df).categorical_cols ↔
      ∃ c ∈ df.cols, (classifyCol df.nrows c).2 = Tag.categorical ∧
        (classifyCol df.nrows c).1.name = x := by
  simp only [detectLoop, List.mem_map, List.mem_filter, beq_iff_eq]
  constructor
  · rintro ⟨p, ⟨⟨c, hc, rfl⟩, ht⟩, rfl⟩
    exact ⟨c, hc, ht, rfl⟩
  · rintro ⟨c, hc, ht, hn⟩
    exact ⟨classifyCol df.nrows c, ⟨⟨c, hc, rfl⟩, ht⟩, hn⟩

theorem mem_detectLoop_ordinal_iff (df : DataFrame) (x : String) :
    x ∈ (detectLoop df).ordinal_cols ↔
      ∃ c ∈ df.cols, (classifyCol df.nrows c).2 = Tag.ordinal ∧
        (classifyCol df.nrows c).1.name = x := by
  simp only [detectLoop, List.mem_map, List.mem_filter, beq_iff_eq]
  constructor
  · rintro ⟨p, ⟨⟨c, hc, rfl⟩, ht⟩, rfl⟩
    exact ⟨c, hc, ht, rfl⟩
  · rintro ⟨c, hc, ht, hn⟩
    exact ⟨classifyCol df.nrows c, ⟨⟨c, hc, rfl⟩, ht⟩, hn⟩

theorem detectLoop_not_ordinal_and_categorical (df : DataFrame)
    (hnd : (df.cols.map Col.name).Nodup) (x : String)
    (ho : x ∈ (detectLoop df).ordinal_cols)
    (hc : x ∈ (detectLoop df).categorical_cols) : False := by
  obtain ⟨c₁, hm₁, ht₁, hn₁⟩ := (mem_detectLoop_ordinal_iff df x).mp ho
  obtain ⟨c₂, hm₂, ht₂, hn₂⟩ := (mem_detectLoop_categorical_iff df x).mp hc
  have he : c₁ = c₂ := List.inj_on_of_nodup_map hnd hm₁ hm₂ (by
    rw [← classifyCol_name df.nrows c₁, ← classifyCol_name df.nrows c₂, hn₁, hn₂])
  rw [he, ht₂] at ht₁
  cases ht₁

theorem find?_name_map (f : Col → Col) (hf : ∀ k, (f k).name = k.name)
    (cols : List Col) (c : Col) (hmem : c ∈ cols)
    (hnd : (cols.map Col.name).Nodup) :
    (cols.map f).find? (fun k => k.name == c.name) = some (f c) := by
  induction cols with
  | nil => cases hmem
  | cons a l ih =>
    rw [List.map_cons] at hnd ⊢
    rcases List.mem_cons.mp hmem with rfl | hm
    · exact List.find?_cons_of_pos _ (by simp [hf])
    · have hne : ((f a).name == c.name) = false := by
        rw [hf a]
        simp only [beq_eq_false_iff_ne, ne_eq]
        intro he
        exact (List.nodup_cons.mp hnd).1 (he ▸ List.mem_map_of_mem Col.name hm)
      simp only [List.find?_cons, hne]
      exact ih hm (List.nodup_cons.mp hnd).2

theorem getCol_detectLoop (df : DataFrame) (c : Col) (hmem : c ∈ df.cols)
    (hnd : (df.cols.map Col.name).Nodup) :
    getCol (detectLoop df).df c.name = some (classifyCol df.nrows c).1.data := by
  unfold getCol detectLoop
  simp only [List.map_map]
  rw [find?_name_map (Prod.fst ∘ classifyCol df.nrows)
    (fun k => classifyCol_name df.nrows k) df.cols c hmem hnd]
  rfl

theorem applyBrandOverride_numeric (r : DetectResult) :
    (applyBrandOverride r).numeric_cols = r.numeric_cols := by
  unfold applyBrandOverride
  split <;> rfl

theorem applyOverrides_numeric (r : DetectResult) :
    (applyOverrides r).numeric_cols = r.numeric_cols := by
  unfold applyOverrides applyAttributionOverride
  split <;> simp [applyBrandOverride_numeric]

theorem mem_ordinal_applyBrand (r : DetectResult) (x : String)
    (hx : x ∈ (applyBrandOverride r).ordinal_cols) :
    x ∈ r.ordinal_cols ∨ (x = brand_image_col ∧ brand_image_col ∈ r.categorical_cols) := by
  unfold applyBrandOverride at hx
  split at hx
  · rename_i hb
    rcases List.mem_append.mp hx with h | h
    · exact Or.inl h
    · exact Or.inr ⟨by simpa using h, hb⟩
  · exact Or.inl hx

theorem mem_ordinal_applyBrand_of (r : DetectResult) (x : String)
    (hx : x ∈ r.ordinal_cols) : x ∈ (applyBrandOverride r).ordinal_cols := by
  unfold applyBrandOverride
  split
  · exact List.mem_append_left _ hx
  · exact hx

theorem mem_categorical_applyBrand (r : DetectResult) (x : String)
    (hx : x ∈ (applyBrandOverride r).categorical_cols) :
    x ∈ r.categorical_cols := by
  unfold applyBrandOverride at hx
  split at hx
  · exact List.mem_of_mem_erase hx
  · exact hx

theorem mem_ordinal_applyAttr (r : DetectResult) (x : String)
    (hx : x ∈ (applyAttributionOverride r).ordinal_cols) :
    x ∈ r.ordinal_cols := by
  unfold applyAttributionOverride at hx
  split at hx
  · exact List.mem_of_mem_erase hx
  · exact hx

theorem mem_ordinal_applyAttr_of (r : DetectResult) (x : String)
    (hx : x ∈ r.ordinal_cols) (hattr : x ≠ attribution_col) :
    x ∈ (applyAttributionOverride r).ordinal_cols := by
  unfold applyAttributionOverride
  split
  · exact (List.mem_erase_of_ne hattr).mpr hx
  · exact hx

theorem mem_categorical_applyAttr (r : DetectResult) (x : String)
    (hx : x ∈ (applyAttributionOverride r).categorical_cols) :
    x ∈ r.categorical_cols ∨ (x = attribution_col ∧ attribution_col ∈ r.ordinal_cols) := by
  unfold applyAttributionOverride at hx
  split at hx
  · rename_i hattr
    rcases List.mem_append.mp hx with h | h
    · exact Or.inl h
    · exact Or.inr ⟨by simpa using h, hattr⟩
  · exact Or.inl hx

theorem mem_ordinal_applyOverrides (r : DetectResult) (x : String)
    (hx : x ∈ (applyOverrides r).ordinal_cols) :
    x ∈ r.ordinal_cols ∨ (x = brand_image_col ∧ brand_image_col ∈ r.categorical_cols) :=
  mem_ordinal_applyBrand r x (mem_ordinal_applyAttr _ x hx)

theorem mem_categorical_applyOverrides (r : DetectResult) (x : String)
    (hx : x ∈ (applyOverrides r).categorical_cols) :
    x ∈ r.categorical_cols ∨ (x = attribution_col ∧ attribution_col ∈ r.ordinal_cols) := by
  rcases mem_categorical_applyAttr _ x hx with h | ⟨rfl, hattr⟩
  · exact Or.inl (mem_categorical_applyBrand r x h)
  · rcases mem_ordinal_applyBrand r attribution_col hattr with h | ⟨he, _⟩
    · exact Or.inr ⟨rfl, h⟩
    · exact absurd he.symm brand_ne_attribution

theorem mem_ordinal_applyOverrides_of (r : DetectResult) (x : String)
    (hx : x ∈ r.ordinal_cols) (hattr : x ≠ attribution_col) :
    x ∈ (applyOverrides r).ordinal_cols :=
  mem_ordinal_applyAttr_of _ x (mem_ordinal_applyBrand_of r x hx) hattr

theorem applyAttributionOverride_df (r : DetectResult) :
    (applyAttributionOverride r).df = r.df := by
  unfold applyAttributionOverride
  split <;> rfl

theorem listMin_spec (l : List ℚ) (h : l ≠ []) :
    ∃ m, listMin l = some m ∧ m ∈ l := by
  induction l with
  | nil => exact absurd rfl h
  | cons x t ih =>
    cases t with
    | nil => exact ⟨x, rfl, by simp⟩
    | cons y s =>
      obtain ⟨m, hm, hmem⟩ := ih (by simp)
      refine ⟨min x m, ?_, ?_⟩
      · show (match listMin (y :: s) with
          | none => some x
          | some m => some (min x m)) = some (min x m)
        rw [hm]
      · rcases le_total x m with hx | hx
        · simp [min_eq_left hx]
        · rw [min_eq_right hx]
          exact List.mem_cons_of_mem _ hmem

theorem listMax_spec (l : List ℚ) (h : l ≠ []) :
    ∃ m, listMax l = some m ∧ m ∈ l := by
  induction l with
  | nil => exact absurd rfl h
  | cons x t ih =>
    cases t with
    | nil => exact ⟨x, rfl, by simp⟩
    | cons y s =>
      obtain ⟨m, hm, hmem⟩ := ih (by simp)
      refine ⟨max x m, ?_, ?_⟩
      · show (match listMax (y :: s) with
          | none => some x
          | some m => some (max x m)) = some (max x m)
        rw [hm]
      · rcases le_total x m with hx | hx
        · rw [max_eq_right hx]
          exact List.mem_cons_of_mem _ hmem
        · simp [max_eq_left hx]

theorem not_mem_detectLoop_numeric (df : DataFrame) (c : Col) (hmem : c ∈ df.cols)
    (hnd : (df.cols.map Col.name).Nodup)
    (ht : (classifyCol df.nrows c).2 ≠ Tag.numeric) :
    c.name ∉ (detectLoop df).numeric_cols := fun hx => by
  obtain ⟨k, hk, htk, hnk⟩ := (mem_detectLoop_numeric_iff df c.name).mp hx
  have he : k = c := List.inj_on_of_nodup_map hnd hk hmem
    (by rw [← classifyCol_name df.nrows k, hnk])
  exact ht (he ▸ htk)

theorem not_mem_detectLoop_categorical (df : DataFrame) (c : Col) (hmem : c ∈ df.cols)
    (hnd : (df.cols.map Col.name).Nodup)
    (ht : (classifyCol df.nrows c).2 ≠ Tag.categorical) :
    c.name ∉ (detectLoop df).categorical_cols := fun hx => by
  obtain ⟨k, hk, htk, hnk⟩ := (mem_detectLoop_categorical_iff df c.name).mp hx
  have he : k = c := List.inj_on_of_nodup_map hnd hk hmem
    (by rw [← classifyCol_name df.nrows k, hnk])
  exact ht (he ▸ htk)

theorem not_mem_detectLoop_ordinal (df : DataFrame) (c : Col) (hmem : c ∈ df.cols)
    (hnd : (df.cols.map Col.name).Nodup)
    (ht : (classifyCol df.nrows c).2 ≠ Tag.ordinal) :
    c.name ∉ (detectLoop df).ordinal_cols := fun hx => by
  obtain ⟨k, hk, htk, hnk⟩ := (mem_detectLoop_ordinal_iff df c.name).mp hx
  have he : k = c := List.inj_on_of_nodup_map hnd hk hmem
    (by rw [← classifyCol_name df.nrows k, hnk])
  exact ht (he ▸ htk)

/-- The numeric branch of `classifyCol` on an all-integral column with
values in `[0, 10]` that passes the exclusion test: classified ordinal
with the ascending sorted distinct values as categories. -/
theorem classifyCol_ordinal_of_int_range (n : ℕ) (c : Col) (vs : List (Option ℚ))
    (hdata : c.data = .nums vs)
    (hex1 : containsSub (strToLower c.name) "id" = false)
    (hex2 : ¬ n < 2 * nuniqueData c.data)
    (hint : ∀ x ∈ vs.filterMap id, x.den = 1 ∧ 0 ≤ x ∧ x ≤ 10) :
    classifyCol n c =
      (Col.mk c.name (toCategorical (vs.map (Option.map Val.num))
          (((firstDedup (vs.filterMap id)).insertionSort (· ≤ ·)).map Val.num)),
        .ordinal) := by
  obtain ⟨nm, d⟩ := c
  dsimp only at hdata
  subst hdata
  have hcond : (containsSub (strToLower (Col.mk nm (ColData.nums vs)).name) "id"
      || decide (n < 2 * nuniqueData (Col.mk nm (ColData.nums vs)).data)) = false := by
    rw [hex1, decide_eq_false hex2]
    rfl
  have hallInt : (vs.filterMap id).all (fun x => x.den == 1) = true :=
    List.all_eq_true.mpr (fun x hx => beq_iff_eq.mpr (hint x hx).1)
  unfold classifyCol
  rw [if_neg (by simp [hcond])]
  dsimp only
  rw [hallInt]
  rw [if_neg (by simp)]
  rw [if_pos]
  by_cases hser : vs.filterMap id = []
  · simp [hser, firstDedup, firstDedupAux]
  · obtain ⟨mn, hmn, hmnmem⟩ := listMin_spec _ hser
    obtain ⟨mx, hmx, hmxmem⟩ := listMax_spec _ hser
    have hrt : rangeTest (vs.filterMap id) true = true := by
      unfold rangeTest
      rw [hmn, hmx]
      simp [(hint mn hmnmem).2.1, (hint mx hmxmem).2.2]
    rw [hrt]
    simp

/-! ## Claim C1: small all-integral numeric columns become ordinal -/

/-- The C1 counterexample table: a single NUMERIC column named exactly
like the attribution column, with all-integral values in `[0, 10]`,
4 distinct non-null values out of 8 rows (so it passes the exclusion
test). -/
def dfC1 : DataFrame :=
  ⟨8, [⟨attribution_col,
        .nums [some 3, some 1, some 1, some 0, some 10, some 3, some 0, some 1]⟩]⟩

/-- Counterexample to claim C1 as stated: the column of `dfC1` satisfies
every hypothesis of the claim (numeric, passes exclusion, all values
integral in `[0, 10]`, at most 11 distinct values), yet
`detect_survey_columns` does NOT classify it as Ordinal — the
attribution override moves it to the categorical list. -/
theorem c1_attribution_numeric_not_ordinal :
    containsSub (strToLower attribution_col) "id" = false ∧
    2 * nuniqueData (ColData.nums
      [some 3, some 1, some 1, some 0, some 10, some 3, some 0, some 1]) ≤ dfC1.nrows ∧
    nuniqueData (ColData.nums
      [some 3, some 1, some 1, some 0, some 10, some 3, some 0, some 1]) ≤ 11 ∧
    attribution_col ∉ (detect_survey_columns dfC1).ordinal_cols ∧
    (detect_survey_columns dfC1).categorical_cols = [attribution_col] :=
  ⟨by with_unfolding_all decide, by with_unfolding_all decide, by with_unfolding_all decide,
   by with_unfolding_all decide, by with_unfolding_all rfl⟩

/-- Claim C1 (amended): for every numeric column that passes the
exclusion test, whose non-null values are all integral and in `[0, 10]`
(hence at most 11 distinct values), and whose name is not the hardcoded
attribution column name, `detect_survey_columns` classifies the column
as Ordinal and re-encodes it as an ordered categorical whose category
order is the ascending sequence of the distinct values present. -/
theorem c1_numeric_int_range_ordinal (df : DataFrame) (c : Col) (vs : List (Option ℚ))
    (hmem : c ∈ df.cols) (hnd : (df.cols.map Col.name).Nodup)
    (hdata : c.data = .nums vs)
    (hex1 : containsSub (strToLower c.name) "id" = false)
    (hex2 : 2 * nuniqueData c.data ≤ df.nrows)
    (hint : ∀ x ∈ vs.filterMap id, x.den = 1 ∧ 0 ≤ x ∧ x ≤ 10)
    (hcard : (firstDedup (vs.filterMap id)).length ≤ 11)
    (hattr : c.name ≠ attribution_col) :
    c.name ∈ (detect_survey_columns df).ordinal_cols ∧
    (getCol (detect_survey_columns df).df c.name).bind catOrder
      = some (((firstDedup (vs.filterMap id)).insertionSort (· ≤ ·)).map Val.num) := by
  have hcl := classifyCol_ordinal_of_int_range df.nrows c vs hdata hex1 (not_lt.mpr hex2) hint
  have hloopmem : c.name ∈ (detectLoop df).ordinal_cols :=
    (mem_detectLoop_ordinal_iff df c.name).mpr ⟨c, hmem, by rw [hcl], by rw [hcl]⟩
  refine ⟨mem_ordinal_applyOverrides_of _ _ hloopmem hattr, ?_⟩
  have hget : getCol (detectLoop df).df c.name
      = some (toCategorical (vs.map (Option.map Val.num))
          (((firstDedup (vs.filterMap id)).insertionSort (· ≤ ·)).map Val.num)) := by
    rw [getCol_detectLoop df c hmem hnd, hcl]
  have hbrand : getCol (applyBrandOverride (detectLoop df)).df c.name
      = getCol (detectLoop df).df c.name := by
    unfold applyBrandOverride
    split
    · rename_i hb
      have hcb : c.name ≠ brand_image_col := fun he =>
        detectLoop_not_ordinal_and_categorical df hnd c.name hloopmem (he ▸ hb)
      exact getCol_setCol_ne _ _ _ _ hcb
    · rfl
  rw [show detect_survey_columns df = applyAttributionOverride (applyBrandOverride
      (detectLoop df)) from rfl, applyAttributionOverride_df, hbrand, hget]
  rfl

/-- The C1 witness column data. -/
def vsC1w : List (Option ℚ) :=
  [some 3, some 1, some 1, some 0, some 10, some 3, some 0, some 1]

/-- The C1 witness table: one numeric column `"sat"` over 8 rows with
4 distinct integral values in `[0, 10]`. -/
def dfC1w : DataFrame := ⟨8, [⟨"sat", .nums vsC1w⟩]⟩

theorem c1_numeric_int_range_ordinal_witness :
    "sat" ∈ (detect_survey_columns dfC1w).ordinal_cols ∧
    (getCol (detect_survey_columns dfC1w).df "sat").bind catOrder
      = some (((firstDedup (vsC1w.filterMap id)).insertionSort (· ≤ ·)).map Val.num) :=
  c1_numeric_int_range_ordinal dfC1w ⟨"sat", .nums vsC1w⟩ vsC1w
    (by simp [dfC1w]) (by simp [dfC1w]) rfl
    (by with_unfolding_all decide) (by with_unfolding_all decide)
    (by with_unfolding_all decide) (by with_unfolding_all decide)
    (by decide)

/-! ## Claim C2: the exclusion test excludes from all three lists -/

/-- Claim C2: a column whose name contains `"id"` (case-insensitively),
or whose distinct non-null value count exceeds half the row count, is
excluded from all three classification lists. -/
theorem c2_excluded_not_classified (df : DataFrame) (c : Col)
    (hmem : c ∈ df.cols) (hnd : (df.cols.map Col.name).Nodup)
    (hex : containsSub (strToLower c.name) "id" = true ∨
      df.nrows < 2 * nuniqueData c.data) :
    c.name ∉ (detect_survey_columns df).numeric_cols ∧
    c.name ∉ (detect_survey_columns df).categorical_cols ∧
    c.name ∉ (detect_survey_columns df).ordinal_cols := by
  have hcond : (containsSub (strToLower c.name) "id"
      || decide (df.nrows < 2 * nuniqueData c.data)) = true := by
    rcases hex with h | h
    · simp [h]
    · simp [h]
  have hskip : (classifyCol df.nrows c).2 = Tag.skip := by
    unfold classifyCol
    rw [if_pos hcond]
  have h1 := not_mem_detectLoop_numeric df c hmem hnd (by simp [hskip])
  have h2 := not_mem_detectLoop_categorical df c hmem hnd (by simp [hskip])
  have h3 := not_mem_detectLoop_ordinal df c hmem hnd (by simp [hskip])
  refine ⟨?_, ?_, ?_⟩
  · rw [show (detect_survey_columns df).numeric_cols = (detectLoop df).numeric_cols from
      applyOverrides_numeric _]
    exact h1
  · intro hx
    rcases mem_categorical_applyOverrides _ _ hx with h | ⟨he, hattr⟩
    · exact h2 h
    · exact h3 (he ▸ hattr)
  · intro hx
    rcases mem_ordinal_applyOverrides _ _ hx with h | ⟨he, hb⟩
    · exact h3 h
    · exact h2 (he ▸ hb)

/-- The C2 witness column. -/
def colC2w : Col := ⟨"user Id", .nums [some 1, some 2, some 1, some 2]⟩

/-- The C2 witness table: one numeric column whose name contains `"Id"`. -/
def dfC2w : DataFrame := ⟨4, [colC2w]⟩

theorem c2_excluded_not_classified_witness :
    colC2w.name ∉ (detect_survey_columns dfC2w).numeric_cols ∧
    colC2w.name ∉ (detect_survey_columns dfC2w).categorical_cols ∧
    colC2w.name ∉ (detect_survey_columns dfC2w).ordinal_cols :=
  c2_excluded_not_classified dfC2w colC2w (by simp [dfC2w]) (by simp [dfC2w, colC2w])
    (Or.inl (by with_unfolding_all decide))

/-! ## Claim C8: the brand-perception override -/

/-- The C8 counterexample table: the brand-perception column is present
but has 2 distinct values over 2 rows, so step 1 excludes it — and then
no override applies: it is NOT classified Ordinal, contradicting the
claim's "regardless of the outcome of heuristic steps 1–3". -/
def df8 : DataFrame := ⟨2, [⟨brand_image_col, .strs [some "a", some "b"]⟩]⟩

/-- Counterexample to claim C8 as stated: on `df8` the brand column is
present, yet it is excluded (not Ordinal), because the override only
fires when steps 1–3 classified the column as Categorical. -/
theorem c8_brand_excluded_not_ordinal :
    (getCol df8 brand_image_col).isSome = true ∧
    brand_image_col ∉ (detect_survey_columns df8).ordinal_cols ∧
    (detect_survey_columns df8).ordinal_cols = [] :=
  ⟨by with_unfolding_all rfl, by with_unfolding_all decide, by with_unfolding_all rfl⟩

/-- Claim C8 (amended): if steps 1–3 classified the brand-perception
column as Categorical, the post-pass override reclassifies it as Ordinal
and re-encodes it over the fixed 5-point category order
`["Muy negativa", "Negativa", "Neutra", "Positiva", "Muy positiva"]`;
otherwise (excluded, Ordinal-by-heuristic, …) the heuristic's outcome
stands. -/
theorem c8_brand_forced_from_categorical (df : DataFrame)
    (hb : brand_image_col ∈ (detectLoop df).categorical_cols) :
    brand_image_col ∈ (detect_survey_columns df).ordinal_cols ∧
    (getCol (detect_survey_columns df).df brand_image_col).bind catOrder
      = some brand_categories := by
  have hord : brand_image_col ∈ (applyBrandOverride (detectLoop df)).ordinal_cols := by
    unfold applyBrandOverride
    rw [if_pos hb]
    exact List.mem_append_right _ (by simp)
  constructor
  · exact mem_ordinal_applyAttr_of _ _ hord (fun he => brand_ne_attribution he)
  · rw [show detect_survey_columns df = applyAttributionOverride (applyBrandOverride
        (detectLoop df)) from rfl, applyAttributionOverride_df]
    unfold applyBrandOverride
    rw [if_pos hb]
    dsimp only
    rw [getCol_setCol_self]
    rfl

/-- The C8 witness table: the brand column holds text values with no
ordinal cue token, so steps 1–3 classify it Categorical. -/
def df8w : DataFrame :=
  ⟨4, [⟨brand_image_col,
        .strs [some "Buena", some "Mala", some "Buena", some "Buena"]⟩]⟩

theorem c8_brand_forced_from_categorical_witness :
    brand_image_col ∈ (detect_survey_columns df8w).ordinal_cols ∧
    (getCol (detect_survey_columns df8w).df brand_image_col).bind catOrder
      = some brand_categories :=
  c8_brand_forced_from_categorical df8w (by with_unfolding_all decide)

/-! ## Claim C4: the §4.2 worked scenario -/

/-- The 5-row scenario table: 3 Control rows (`"No"`, KPI 2, 4, 6) and
2 Exposed rows (`"Sí, una vez"`, KPI 5, 9). -/
def df4 : DataFrame :=
  ⟨5, [⟨"exp", .strs [some "No", some "No", some "No", some "Sí, una vez", some "Sí, una vez"]⟩,
       ⟨"kpi", .nums [some 2, some 4, some 6, some 5, some 9]⟩]⟩

/-- The uplift list the scenario produces. -/
def u4 : List ℚ :=
  upliftList (groupsOf (dataVals (ColData.strs
    [some "No", some "No", some "No", some "Sí, una vez", some "Sí, una vez"])))
    [some 2, some 4, some 6, some 5, some 9]

/-- Claim C4: on the 5-row dataset with Control KPIs 2, 4, 6
(control average 4) and Exposed KPIs 5, 9 (uplifts 1 and 5),
`calculate_impact_score` computes top_25 = 5, bottom_10 = 1,
denominator = 4, components 0 and 1, and returns score 100 with no
error. -/
theorem c4_scenario_score_100 :
    u4 = [1, 5] ∧ x_i_top25 u4 = 5 ∧ x_i_flop10 u4 = 1 ∧ denominatorOf u4 = 4 ∧
    (calculate_impact_score df4 "exp" "kpi").map Prod.snd = some (some 100, none) :=
  ⟨by with_unfolding_all rfl, by with_unfolding_all rfl, by with_unfolding_all rfl,
   by with_unfolding_all rfl, by with_unfolding_all rfl⟩

/-! ## Claim C5: zero exposed rows -/

/-- Claim C5: whenever no cell of the exposure column belongs to the
positive-response set (so every row is Control), `calculate_impact_score`
returns `(None, "No data available for the exposed group.")`. -/
theorem c5_no_exposed_error (df : DataFrame) (a k : String) (ed : ColData)
    (kv : List (Option ℚ)) (ha : getCol df a = some ed)
    (hno : ∀ v ∈ dataVals ed, exposedVal v = false)
    (hk : k ≠ "Group") (hkv : getCol df k = some (.nums kv)) :
    calculate_impact_score df a k =
      some (setCol df "Group" (groupColumn (groupsOf (dataVals ed))),
        (none, some "No data available for the exposed group.")) := by
  rw [calculate_impact_score_eq df a k ed kv ha hk hkv,
    upliftList_eq_nil_of_no_exposed _ kv (fun b hb => by
      obtain ⟨v, hv, rfl⟩ := List.mem_map.mp hb
      exact hno v hv)]
  rfl

/-- The exposure column of the C5 witness table. -/
def edC5 : ColData := .strs [some "No", none]

/-- C5 witness table: two rows, neither exposed. -/
def df5w : DataFrame := ⟨2, [⟨"exp", edC5⟩, ⟨"kpi", .nums [some 3, some 4]⟩]⟩

theorem c5_no_exposed_error_witness :
    calculate_impact_score df5w "exp" "kpi" =
      some (setCol df5w "Group" (groupColumn (groupsOf (dataVals edC5))),
        (none, some "No data available for the exposed group.")) :=
  c5_no_exposed_error df5w "exp" "kpi" edC5 [some 3, some 4]
    (by with_unfolding_all rfl) (by with_unfolding_all decide)
    (by decide) (by with_unfolding_all rfl)

/-! ## Claim C6: zero denominator -/

/-- The C6 table: one Control row (KPI 3) and one Exposed row (KPI 5),
so the single uplift is 2 and the denominator is 0. -/
def df6 : DataFrame :=
  ⟨2, [⟨"exp", .strs [some "No", some "Sí, una vez"]⟩,
       ⟨"kpi", .nums [some 3, some 5]⟩]⟩

/-- Counterexample to claim C6 as stated: on `df6` the denominator is
zero and the returned message is
`"Denominator (x_i_top25 - x_i_flop10) is zero, cannot calculate IS."`,
not the claimed `"Denominator is zero, cannot calculate IS."`. -/
theorem c6_denominator_message_differs :
    (calculate_impact_score df6 "exp" "kpi").map Prod.snd
        = some (none, some "Denominator (x_i_top25 - x_i_flop10) is zero, cannot calculate IS.") ∧
    (some "Denominator (x_i_top25 - x_i_flop10) is zero, cannot calculate IS." : Option String)
        ≠ some "Denominator is zero, cannot calculate IS." :=
  ⟨by with_unfolding_all rfl, by decide⟩

/-- Claim C6 (amended): whenever the dropna'd uplift list is nonempty and
its denominator `top_25 − bottom_10` is 0, `calculate_impact_score`
returns `None` with the error message
`"Denominator (x_i_top25 - x_i_flop10) is zero, cannot calculate IS."`. -/
theorem c6_zero_denominator_error (df : DataFrame) (a k : String) (ed : ColData)
    (kv : List (Option ℚ)) (ha : getCol df a = some ed) (hk : k ≠ "Group")
    (hkv : getCol df k = some (.nums kv))
    (hne : upliftList (groupsOf (dataVals ed)) kv ≠ [])
    (hden : denominatorOf (upliftList (groupsOf (dataVals ed)) kv) = 0) :
    calculate_impact_score df a k =
      some (setCol df "Group" (groupColumn (groupsOf (dataVals ed))),
        (none, some "Denominator (x_i_top25 - x_i_flop10) is zero, cannot calculate IS.")) := by
  rw [calculate_impact_score_eq df a k ed kv ha hk hkv]
  unfold impactCore
  rw [if_neg (by simpa using hne), if_pos hden]

/-- The exposure column of the C6 witness table. -/
def edC6 : ColData := .strs [some "No", some "Sí, varias veces"]

/-- C6 witness table: one Control row (KPI 1), one Exposed row (KPI 6). -/
def df6w : DataFrame := ⟨2, [⟨"exp", edC6⟩, ⟨"kpi", .nums [some 1, some 6]⟩]⟩

theorem c6_zero_denominator_error_witness :
    calculate_impact_score df6w "exp" "kpi" =
      some (setCol df6w "Group" (groupColumn (groupsOf (dataVals edC6))),
        (none, some "Denominator (x_i_top25 - x_i_flop10) is zero, cannot calculate IS.")) :=
  c6_zero_denominator_error df6w "exp" "kpi" edC6 [some 1, some 6]
    (by with_unfolding_all rfl) (by decide) (by with_unfolding_all rfl)
    (by with_unfolding_all decide) (by with_unfolding_all decide)

/-! ## Claim C7: empty Control group -/

/-- The C7 table: both rows exposed, numeric KPI — the Control group is
empty. -/
def df7 : DataFrame :=
  ⟨2, [⟨"exp", .strs [some "Sí, una vez", some "Sí, varias veces"]⟩,
       ⟨"kpi", .nums [some 5, some 9]⟩]⟩

/-- Counterexample to claim C7 as stated: with an empty Control group the
code does NOT return a NaN score with no error — the NaN uplifts are
dropped by `dropna`, so it returns no score together with the error
`"No data available for the exposed group."`. -/
theorem c7_empty_control_returns_error_not_nan :
    (calculate_impact_score df7 "exp" "kpi").map Prod.snd
      = some (none, some "No data available for the exposed group.") := by
  with_unfolding_all rfl

/-- Claim C7 (amended): for every dataset whose Control group is empty
and whose Exposed group is non-empty with numeric KPI values,
`calculate_impact_score` returns no score and the explicit error
`"No data available for the exposed group."` (the NaN `control_avg`
makes every uplift NaN, and `dropna` removes them all). -/
theorem c7_empty_control_error (df : DataFrame) (a k : String) (ed : ColData)
    (kv : List (Option ℚ)) (ha : getCol df a = some ed)
    (hall : ∀ v ∈ dataVals ed, exposedVal v = true)
    (hne : dataVals ed ≠ [])
    (hk : k ≠ "Group") (hkv : getCol df k = some (.nums kv)) :
    calculate_impact_score df a k =
      some (setCol df "Group" (groupColumn (groupsOf (dataVals ed))),
        (none, some "No data available for the exposed group.")) := by
  rw [calculate_impact_score_eq df a k ed kv ha hk hkv,
    upliftList_eq_nil_of_all_exposed _ kv (fun b hb => by
      obtain ⟨v, hv, rfl⟩ := List.mem_map.mp hb
      exact hall v hv)]
  rfl

/-- The exposure column of the C7 witness table. -/
def edC7 : ColData := .strs [some "Sí, una vez", some "Sí, una vez"]

/-- C7 witness table: every row exposed, numeric KPI. -/
def df7w : DataFrame := ⟨2, [⟨"exp", edC7⟩, ⟨"kpi", .nums [some 2, some 8]⟩]⟩

theorem c7_empty_control_error_witness :
    calculate_impact_score df7w "exp" "kpi" =
      some (setCol df7w "Group" (groupColumn (groupsOf (dataVals edC7))),
        (none, some "No data available for the exposed group.")) :=
  c7_empty_control_error df7w "exp" "kpi" edC7 [some 2, some 8]
    (by with_unfolding_all rfl) (by with_unfolding_all decide)
    (by with_unfolding_all decide) (by decide) (by with_unfolding_all rfl)

/-! ## Claim C10: purity of `calculate_impact_score` -/

/-- The C10 table, which has no `'Group'` column. -/
def df10 : DataFrame :=
  ⟨2, [⟨"exp", .strs [some "No", some "Sí, una vez"]⟩,
       ⟨"kpi", .nums [some 3, some 7]⟩]⟩

/-- Counterexample to claim C10 as stated: the call writes a `'Group'`
column into its input table, so the table is NOT unchanged after the
call. -/
theorem c10_mutates_group_column :
    (calculate_impact_score df10 "exp" "kpi").map Prod.fst ≠ some df10 := by
  with_unfolding_all decide

/-- Claim C10 (amended): `calculate_impact_score` mutates its input table
only by writing the derived `'Group'` column (computed from the exposure
column); every other column, and the row count, are unchanged, and the
result is a pure function of the inputs. -/
theorem c10_only_group_column_written (df : DataFrame) (a k : String)
    (dfq : DataFrame) (res : Option ℚ × Option String)
    (h : calculate_impact_score df a k = some (dfq, res)) :
    (∃ ed, getCol df a = some ed ∧
        dfq = setCol df "Group" (groupColumn (groupsOf (dataVals ed)))) ∧
    (∀ c : String, c ≠ "Group" → getCol dfq c = getCol df c) ∧
    dfq.nrows = df.nrows := by
  unfold calculate_impact_score at h
  split at h
  · cases h
  · rename_i ed hed
    split at h
    · rename_i kvals hkv
      obtain ⟨h1, h2⟩ := Prod.mk.injEq _ _ _ _ ▸ Option.some.injEq _ _ ▸ h
      refine ⟨⟨ed, hed, h1.symm⟩, fun c hc => ?_, ?_⟩
      · rw [← h1]
        exact getCol_setCol_ne df c "Group" _ hc
      · rw [← h1]
        unfold setCol
        split <;> rfl
    · cases h
    · cases h

/-- The C10 witness table (no `'Group'` column beforehand). -/
def df10w : DataFrame :=
  ⟨2, [⟨"exp", .strs [some "No", some "Sí, una vez"]⟩,
       ⟨"kpi", .nums [some 1, some 9]⟩]⟩

/-- The post-call state of the C10 witness table. -/
def dfq10 : DataFrame :=
  setCol df10w "Group" (groupColumn (groupsOf (dataVals
    (ColData.strs [some "No", some "Sí, una vez"]))))

theorem c10_only_group_column_written_witness :
    (∃ ed, getCol df10w "exp" = some ed ∧
        dfq10 = setCol df10w "Group" (groupColumn (groupsOf (dataVals ed)))) ∧
    (∀ c : String, c ≠ "Group" → getCol dfq10 c = getCol df10w c) ∧
    dfq10.nrows = df10w.nrows :=
  c10_only_group_column_written df10w "exp" "kpi" dfq10
    (none, some "Denominator (x_i_top25 - x_i_flop10) is zero, cannot calculate IS.")
    (by with_unfolding_all rfl)

/-! ## Sorting lemmas for the Overview counts block -/

theorem eq_of_perm_of_pairwise_keyLT {α : Type} (f : α → ℕ) {l₁ l₂ : List α}
    (hp : l₁.Perm l₂) (h₁ : l₁.Pairwise (fun a b => f a < f b))
    (h₂ : l₂.Pairwise (fun a b => f a < f b)) : l₁ = l₂ := by
  haveI : IsAntisymm α (fun a b => f a < f b) :=
    ⟨fun a b h h' => absurd (Nat.lt_trans h h') (lt_irrefl _)⟩
  exact List.eq_of_perm_of_sorted hp h₁ h₂

theorem pairwise_indexOf_lt_of_nodup {α : Type} [DecidableEq α] (l : List α)
    (h : l.Nodup) : l.Pairwise (fun a b => l.indexOf a < l.indexOf b) := by
  induction l with
  | nil => exact List.Pairwise.nil
  | cons x t ih =>
    obtain ⟨hx, ht⟩ := List.nodup_cons.mp h
    refine List.Pairwise.cons ?_ ?_
    · intro b hb
      have hxb : x ≠ b := fun e => hx (e ▸ hb)
      rw [List.indexOf_cons_self, List.indexOf_cons_ne _ hxb]
      exact Nat.succ_pos _
    · refine List.Pairwise.imp_of_mem ?_ (ih ht)
      intro a b ha hb hab
      have hxa : x ≠ a := fun e => hx (e ▸ ha)
      have hxb : x ≠ b := fun e => hx (e ▸ hb)
      rw [List.indexOf_cons_ne _ hxa, List.indexOf_cons_ne _ hxb]
      exact Nat.succ_lt_succ hab

/-- The final `sort_values` step of the Overview block: sorting any pair
list with distinct first components drawn from a duplicate-free category
list arranges its rows in declared category order. -/
theorem sortByCatOrder_map_fst (cats : List Val) (E : List (Val × ℚ))
    (hnd : cats.Nodup) (hsub : ∀ p ∈ E, p.1 ∈ cats)
    (hEnd : (E.map Prod.fst).Nodup) :
    (sortByCatOrder cats E).map Prod.fst
      = cats.filter (fun c => c ∈ E.map Prod.fst) := by
  haveI : IsTotal (Val × ℚ) (fun p q => cats.indexOf p.1 ≤ cats.indexOf q.1) :=
    ⟨fun a b => Nat.le_total _ _⟩
  haveI : IsTrans (Val × ℚ) (fun p q => cats.indexOf p.1 ≤ cats.indexOf q.1) :=
    ⟨fun a b c => Nat.le_trans⟩
  have hperm : (sortByCatOrder cats E).Perm E := List.perm_insertionSort _ E
  have hsorted : (sortByCatOrder cats E).Pairwise
      (fun p q => cats.indexOf p.1 ≤ cats.indexOf q.1) :=
    List.sorted_insertionSort _ E
  have hA_perm : ((sortByCatOrder cats E).map Prod.fst).Perm (E.map Prod.fst) :=
    hperm.map _
  have hA_nodup : ((sortByCatOrder cats E).map Prod.fst).Nodup :=
    hA_perm.nodup_iff.mpr hEnd
  have hA_sub : ∀ a ∈ (sortByCatOrder cats E).map Prod.fst, a ∈ cats := by
    intro a ha
    obtain ⟨p, hp, rfl⟩ := List.mem_map.mp ha
    exact hsub p (hperm.mem_iff.mp hp)
  have hA_le : ((sortByCatOrder cats E).map Prod.fst).Pairwise
      (fun a b => cats.indexOf a ≤ cats.indexOf b) := by
    rw [List.pairwise_map]
    exact hsorted
  have hA_lt : ((sortByCatOrder cats E).map Prod.fst).Pairwise
      (fun a b => cats.indexOf a < cats.indexOf b) := by
    refine List.Pairwise.imp_of_mem ?_ (hA_le.and hA_nodup)
    intro a b ha hb hab
    exact lt_of_le_of_ne hab.1 (fun e =>
      hab.2 ((List.indexOf_inj (hA_sub a ha) (hA_sub b hb)).mp e))
  have hB_lt : (cats.filter (fun c => c ∈ E.map Prod.fst)).Pairwise
      (fun a b => cats.indexOf a < cats.indexOf b) :=
    List.Pairwise.sublist (List.filter_sublist cats)
      (pairwise_indexOf_lt_of_nodup cats hnd)
  have hB_perm : (cats.filter (fun c => c ∈ E.map Prod.fst)).Perm
      (E.map Prod.fst) := by
    refine (List.perm_ext_iff_of_nodup (hnd.filter _) hEnd).mpr ?_
    intro a
    simp only [List.mem_filter, decide_eq_true_eq]
    constructor
    · rintro ⟨_, h⟩
      exact h
    · intro h
      obtain ⟨p, hp, rfl⟩ := List.mem_map.mp h
      exact ⟨hsub p hp, h⟩
  exact eq_of_perm_of_pairwise_keyLT (fun a => cats.indexOf a)
    (hA_perm.trans hB_perm.symm) hA_lt hB_lt

/-! ## Claim C3: ordinal counts keep declared category order -/

/-- The category list of the C3 tables. -/
def catsC3 : List Val := [.str "a", .str "b", .str "c"]

/-- The cells of the C3 ordinal column: category `"b"` is absent. -/
def valsC3 : List (Option Val) := [some (.str "a"), some (.str "c")]

/-- The C3 table: an ordinal categorical column `"q"` (categories
`a`, `b`, `c`; only `a` and `c` present) and a numeric weight column. -/
def dfC3 : DataFrame :=
  ⟨2, [⟨"q", .cat valsC3 catsC3⟩, ⟨"w", .nums [some 2, some 3]⟩]⟩

/-- Counterexample to claim C3 as stated: on the unweighted path the
counts table is NOT restricted to the categories present — pandas
`value_counts` on a categorical zero-fills the absent category `"b"`,
so the output key sequence is `[a, b, c]`, not `[a, c]`. -/
theorem c3_unweighted_zero_fills_absent_categories :
    (overview_survey_counts dfC3 "q" none ["q"]).map (List.map Prod.fst)
        ≠ some [Val.str "a", Val.str "c"] ∧
    (overview_survey_counts dfC3 "q" none ["q"])
        = some [(Val.str "a", 1), (Val.str "b", 0), (Val.str "c", 1)] :=
  ⟨by with_unfolding_all decide, by with_unfolding_all rfl⟩

/-- Claim C3 (amended): for an ordinal column (categorical dtype with
duplicate-free declared categories), the Overview counts table is always
in declared category order and never count-sorted; the weighted path
emits exactly the declared order restricted to the categories present,
while the unweighted path emits the full declared order (absent
categories appear zero-filled). -/
theorem c3_ordinal_counts_order (df : DataFrame) (sc : String)
    (vals : List (Option Val)) (cats : List Val) (ord_cols : List String)
    (hs : getCol df sc = some (.cat vals cats)) (hord : sc ∈ ord_cols)
    (hnd : cats.Nodup) :
    ((overview_survey_counts df sc none ord_cols).map (List.map Prod.fst)
        = some cats) ∧
    (∀ w wvals, getCol df w = some (.nums wvals) →
      (overview_survey_counts df sc (some w) ord_cols).map (List.map Prod.fst)
        = some (cats.filter (fun c => some c ∈ vals))) := by
  haveI hTot : IsTotal (Val × ℚ) (fun p q => q.2 ≤ p.2) :=
    ⟨fun a b => (le_total b.2 a.2)⟩
  haveI hTrans : IsTrans (Val × ℚ) (fun p q => q.2 ≤ p.2) :=
    ⟨fun a b c hab hbc => le_trans hbc hab⟩
  constructor
  · have heval : overview_survey_counts df sc none ord_cols
        = some (sortByCatOrder cats (valueCounts (.cat vals cats))) := by
      unfold overview_survey_counts
      rw [hs]
      simp [hord, isCatData, catOrder]
    have hEperm : (valueCounts (.cat vals cats)).Perm
        (cats.map (fun k => (k, (vals.count (some k) : ℚ)))) := by
      unfold valueCounts
      exact List.perm_insertionSort _ _
    have hfst : ((valueCounts (.cat vals cats)).map Prod.fst).Perm cats := by
      have h1 := hEperm.map Prod.fst
      rw [List.map_map] at h1
      have h2 : List.map (Prod.fst ∘ fun k => (k, (vals.count (some k) : ℚ))) cats
          = cats := List.map_id'' (fun x => rfl) cats
      rwa [h2] at h1
    have hsub : ∀ p ∈ valueCounts (.cat vals cats), p.1 ∈ cats := by
      intro p hp
      exact hfst.mem_iff.mp (List.mem_map_of_mem Prod.fst hp)
    have hEnd : ((valueCounts (.cat vals cats)).map Prod.fst).Nodup :=
      hfst.nodup_iff.mpr hnd
    rw [heval]
    refine congrArg some ?_
    rw [sortByCatOrder_map_fst cats _ hnd hsub hEnd]
    refine List.filter_eq_self.mpr ?_
    intro a ha
    exact decide_eq_true (hfst.mem_iff.mpr ha)
  · intro w wvals hw
    have heval : overview_survey_counts df sc (some w) ord_cols
        = some (sortByCatOrder cats (groupbySum (.cat vals cats) wvals)) := by
      unfold overview_survey_counts
      rw [hs]
      dsimp only
      rw [hw]
      simp [hord, isCatData, catOrder]
    have hkeys : groupKeys (.cat vals cats) = cats.filter (fun c => some c ∈ vals) := rfl
    have hfstE : (groupbySum (.cat vals cats) wvals).map Prod.fst
        = cats.filter (fun c => some c ∈ vals) := by
      unfold groupbySum
      rw [hkeys, List.map_map]
      exact List.map_id'' (fun x => rfl) _
    have hsub : ∀ p ∈ groupbySum (.cat vals cats) wvals, p.1 ∈ cats := by
      intro p hp
      have : p.1 ∈ cats.filter (fun c => some c ∈ vals) :=
        hfstE ▸ List.mem_map_of_mem Prod.fst hp
      exact List.mem_of_mem_filter this
    have hEnd : ((groupbySum (.cat vals cats) wvals).map Prod.fst).Nodup := by
      rw [hfstE]
      exact hnd.filter _
    rw [heval]
    refine congrArg some ?_
    rw [sortByCatOrder_map_fst cats _ hnd hsub hEnd]
    refine List.filter_congr ?_
    intro c hc
    rw [hfstE]
    refine decide_eq_decide.mpr ?_
    simp only [List.mem_filter, decide_eq_true_eq]
    exact ⟨fun h => h.2, fun h => ⟨hc, h⟩⟩

theorem c3_ordinal_counts_order_witness :
    ((overview_survey_counts dfC3 "q" none ["q"]).map (List.map Prod.fst)
        = some catsC3) ∧
    ((overview_survey_counts dfC3 "q" (some "w") ["q"]).map (List.map Prod.fst)
        = some (catsC3.filter (fun c => some c ∈ valsC3))) :=
  ⟨(c3_ordinal_counts_order dfC3 "q" valsC3 catsC3 ["q"]
      (by with_unfolding_all rfl) (by decide) (by with_unfolding_all decide)).1,
   (c3_ordinal_counts_order dfC3 "q" valsC3 catsC3 ["q"]
      (by with_unfolding_all rfl) (by decide) (by with_unfolding_all decide)).2
     "w" [some 2, some 3] (by with_unfolding_all rfl)⟩

/-! ## Bounds for the impact score (claim C9) -/

theorem sum_filter_add_sum_filter_not (l : List ℚ) (p : ℚ → Bool) :
    (l.filter p).sum + (l.filter (fun x => !(p x))).sum = l.sum := by
  induction l with
  | nil => simp
  | cons x t ih =>
    cases hx : p x <;> simp [List.filter_cons, hx] <;> linarith [ih]

theorem length_filter_add_length_filter_not (l : List ℚ) (p : ℚ → Bool) :
    (l.filter p).length + (l.filter (fun x => !(p x))).length = l.length := by
  induction l with
  | nil => simp
  | cons x t ih =>
    cases hx : p x <;> simp [List.filter_cons, hx] <;> omega

/-- The mean over the elements `≤ t` is at most the overall mean. -/
theorem meanD_filter_le_meanD (U : List ℚ) (t : ℚ)
    (hex : ∃ x ∈ U, x ≤ t) :
    meanD (U.filter (fun u => u ≤ t)) ≤ meanD U := by
  obtain ⟨x0, hx0U, hx0t⟩ := hex
  have hx0S : x0 ∈ U.filter (fun u => u ≤ t) :=
    List.mem_filter.mpr ⟨hx0U, decide_eq_true hx0t⟩
  have hmS : 0 < ((U.filter (fun u => u ≤ t)).length : ℚ) := by
    exact_mod_cast List.length_pos.mpr (List.ne_nil_of_mem hx0S)
  have hsum := sum_filter_add_sum_filter_not U (fun u => decide (u ≤ t))
  have hlen := length_filter_add_length_filter_not U (fun u => decide (u ≤ t))
  have hSle : (U.filter (fun u => u ≤ t)).sum
      ≤ ((U.filter (fun u => u ≤ t)).length : ℚ) * t := by
    have h := List.sum_le_card_nsmul (U.filter (fun u => u ≤ t)) t
      (fun x hx => of_decide_eq_true (List.mem_filter.mp hx).2)
    simpa [nsmul_eq_mul, mul_comm] using h
  have hTge : ((U.filter (fun u => !(decide (u ≤ t)))).length : ℚ) * t
      ≤ (U.filter (fun u => !(decide (u ≤ t)))).sum := by
    have h := List.card_nsmul_le_sum (U.filter (fun u => !(decide (u ≤ t)))) t
      (fun x hx => by
        have hb := (List.mem_filter.mp hx).2
        have hb' : decide (x ≤ t) = false := by
          revert hb
          cases decide (x ≤ t) <;> simp
        linarith [lt_of_not_le (of_decide_eq_false hb')])
    simpa [nsmul_eq_mul, mul_comm] using h
  have hnlen : ((U.length : ℚ))
      = ((U.filter (fun u => u ≤ t)).length : ℚ)
        + ((U.filter (fun u => !(decide (u ≤ t)))).length : ℚ) := by
    exact_mod_cast hlen.symm
  have hk0 : 0 ≤ ((U.filter (fun u => !(decide (u ≤ t)))).length : ℚ) := by positivity
  have hm0 : 0 ≤ ((U.filter (fun u => u ≤ t)).length : ℚ) := le_of_lt hmS
  have hnpos : 0 < (U.length : ℚ) := by linarith
  unfold meanD
  rw [div_le_div_iff hmS hnpos, hnlen, ← hsum]
  have hc1 : (U.filter (fun u => u ≤ t)).sum
        * ((U.filter (fun u => !(decide (u ≤ t)))).length : ℚ)
      ≤ (((U.filter (fun u => u ≤ t)).length : ℚ) * t)
        * ((U.filter (fun u => !(decide (u ≤ t)))).length : ℚ) :=
    mul_le_mul_of_nonneg_right hSle hk0
  have hc2 : ((U.filter (fun u => u ≤ t)).length : ℚ)
        * (((U.filter (fun u => !(decide (u ≤ t)))).length : ℚ) * t)
      ≤ ((U.filter (fun u => u ≤ t)).length : ℚ)
        * (U.filter (fun u => !(decide (u ≤ t)))).sum :=
    mul_le_mul_of_nonneg_left hTge hm0
  nlinarith [hc1, hc2]

/-- The overall mean is at most the mean over the elements `≥ t`. -/
theorem meanD_le_meanD_filter_ge (U : List ℚ) (t : ℚ)
    (hex : ∃ x ∈ U, t ≤ x) :
    meanD U ≤ meanD (U.filter (fun u => t ≤ u)) := by
  obtain ⟨x0, hx0U, hx0t⟩ := hex
  have hx0S : x0 ∈ U.filter (fun u => t ≤ u) :=
    List.mem_filter.mpr ⟨hx0U, decide_eq_true hx0t⟩
  have hmS : 0 < ((U.filter (fun u => t ≤ u)).length : ℚ) := by
    exact_mod_cast List.length_pos.mpr (List.ne_nil_of_mem hx0S)
  have hsum := sum_filter_add_sum_filter_not U (fun u => decide (t ≤ u))
  have hlen := length_filter_add_length_filter_not U (fun u => decide (t ≤ u))
  have hSge : ((U.filter (fun u => t ≤ u)).length : ℚ) * t
      ≤ (U.filter (fun u => t ≤ u)).sum := by
    have h := List.card_nsmul_le_sum (U.filter (fun u => t ≤ u)) t
      (fun x hx => of_decide_eq_true (List.mem_filter.mp hx).2)
    simpa [nsmul_eq_mul, mul_comm] using h
  have hTle : (U.filter (fun u => !(decide (t ≤ u)))).sum
      ≤ ((U.filter (fun u => !(decide (t ≤ u)))).length : ℚ) * t := by
    have h := List.sum_le_card_nsmul (U.filter (fun u => !(decide (t ≤ u)))) t
      (fun x hx => by
        have hb := (List.mem_filter.mp hx).2
        have hb' : decide (t ≤ x) = false := by
          revert hb
          cases decide (t ≤ x) <;> simp
        linarith [lt_of_not_le (of_decide_eq_false hb')])
    simpa [nsmul_eq_mul, mul_comm] using h
  have hnlen : ((U.length : ℚ))
      = ((U.filter (fun u => t ≤ u)).length : ℚ)
        + ((U.filter (fun u => !(decide (t ≤ u)))).length : ℚ) := by
    exact_mod_cast hlen.symm
  have hk0 : 0 ≤ ((U.filter (fun u => !(decide (t ≤ u)))).length : ℚ) := by positivity
  have hm0 : 0 ≤ ((U.filter (fun u => t ≤ u)).length : ℚ) := le_of_lt hmS
  have hnpos : 0 < (U.length : ℚ) := by linarith
  unfold meanD
  rw [div_le_div_iff hnpos hmS, hnlen, ← hsum]
  have hc1 : (((U.filter (fun u => t ≤ u)).length : ℚ) * t)
        * ((U.filter (fun u => !(decide (t ≤ u)))).length : ℚ)
      ≤ (U.filter (fun u => t ≤ u)).sum
        * ((U.filter (fun u => !(decide (t ≤ u)))).length : ℚ) :=
    mul_le_mul_of_nonneg_right hSge hk0
  have hc2 : ((U.filter (fun u => t ≤ u)).length : ℚ)
        * (U.filter (fun u => !(decide (t ≤ u)))).sum
      ≤ ((U.filter (fun u => t ≤ u)).length : ℚ)
        * (((U.filter (fun u => !(decide (t ≤ u)))).length : ℚ) * t) :=
    mul_le_mul_of_nonneg_left hTle hm0
  nlinarith [hc1, hc2]

/-- The interpolated quantile lies between some element below it and
some element above it (for `0 ≤ q ≤ 1` and a nonempty list). -/
theorem quantile_bounds (q : ℚ) (xs : List ℚ) (hne : xs ≠ [])
    (h0 : 0 ≤ q) (h1 : q ≤ 1) :
    (∃ x ∈ xs, x ≤ quantile q xs) ∧ (∃ y ∈ xs, quantile q xs ≤ y) := by
  have hquant : quantile q xs =
      match (xs.insertionSort (· ≤ ·)).get?
          ((Int.floor (q * (((xs.insertionSort (· ≤ ·)).length : ℚ) - 1))).toNat),
        (xs.insertionSort (· ≤ ·)).get?
          ((Int.floor (q * (((xs.insertionSort (· ≤ ·)).length : ℚ) - 1))).toNat + 1) with
      | some a, some b =>
          a + (q * (((xs.insertionSort (· ≤ ·)).length : ℚ) - 1)
            - (((Int.floor (q * (((xs.insertionSort (· ≤ ·)).length : ℚ) - 1))).toNat : ℚ)))
            * (b - a)
      | some a, none => a
      | none, _ => 0 := rfl
  have hperm : (xs.insertionSort (· ≤ ·)).Perm xs := List.perm_insertionSort _ xs
  have hsort : (xs.insertionSort (· ≤ ·)).Sorted (· ≤ ·) := List.sorted_insertionSort _ xs
  set s := xs.insertionSort (· ≤ ·) with hsdef
  have hlen : 0 < s.length := by
    rw [hperm.length_eq]
    exact List.length_pos.mpr hne
  set pos : ℚ := q * ((s.length : ℚ) - 1) with hposdef
  have hn1 : (1 : ℚ) ≤ (s.length : ℚ) := by exact_mod_cast hlen
  have hpos0 : 0 ≤ pos := mul_nonneg h0 (by linarith)
  have hposle : pos ≤ (s.length : ℚ) - 1 := by
    have h := mul_le_of_le_one_left (sub_nonneg.mpr hn1) h1
    rw [hposdef]
    exact h
  have hfl0 : (0 : ℤ) ≤ Int.floor pos := Int.floor_nonneg.mpr hpos0
  have hflle : Int.floor pos ≤ (s.length : ℤ) - 1 := by
    have h2 : pos ≤ (((s.length : ℤ) - 1 : ℤ) : ℚ) := by push_cast; linarith
    have h3 := Int.floor_le_floor h2
    rwa [Int.floor_intCast] at h3
  set i : ℕ := (Int.floor pos).toNat with hidef
  have hicast : ((i : ℤ)) = Int.floor pos := Int.toNat_of_nonneg hfl0
  have hilt : i < s.length := by omega
  have hiq : ((i : ℚ)) ≤ pos := by
    have h4 : ((i : ℚ)) = ((Int.floor pos : ℤ) : ℚ) := by exact_mod_cast hicast
    rw [h4]
    exact Int.floor_le pos
  have hiq1 : pos - (i : ℚ) < 1 := by
    have h5 := Int.lt_floor_add_one pos
    have h4 : ((i : ℚ)) = ((Int.floor pos : ℤ) : ℚ) := by exact_mod_cast hicast
    rw [h4]
    linarith
  have hgi : s.get? i = some (s.get ⟨i, hilt⟩) := List.get?_eq_get hilt
  have hamem : s.get ⟨i, hilt⟩ ∈ xs := hperm.mem_iff.mp (s.get_mem _ _)
  clear_value i
  clear_value pos
  clear_value s
  cases hgi1 : s.get? (i + 1) with
  | none =>
    rw [hgi, hgi1] at hquant
    dsimp only at hquant
    exact ⟨⟨s.get ⟨i, hilt⟩, hamem, hquant.ge⟩, ⟨s.get ⟨i, hilt⟩, hamem, hquant.le⟩⟩
  | some b =>
    rw [hgi, hgi1] at hquant
    dsimp only at hquant
    obtain ⟨hib, hbeq⟩ := List.get?_eq_some.mp hgi1
    have hab : s.get ⟨i, hilt⟩ ≤ b := by
      rw [← hbeq]
      exact hsort.rel_get_of_lt (by exact Nat.lt_succ_self i)
    have hbmem : b ∈ xs := by
      rw [← hbeq]
      exact hperm.mem_iff.mp (s.get_mem _ _)
    have hγ0 : 0 ≤ pos - (i : ℚ) := by linarith
    have hγ1 : pos - (i : ℚ) ≤ 1 := le_of_lt hiq1
    have h6 : 0 ≤ (pos - (i : ℚ)) * (b - s.get ⟨i, hilt⟩) :=
      mul_nonneg hγ0 (sub_nonneg.mpr hab)
    have h7 : (pos - (i : ℚ)) * (b - s.get ⟨i, hilt⟩) ≤ b - s.get ⟨i, hilt⟩ :=
      mul_le_of_le_one_left (sub_nonneg.mpr hab) hγ1
    refine ⟨⟨s.get ⟨i, hilt⟩, hamem, ?_⟩, ⟨b, hbmem, ?_⟩⟩
    · rw [hquant]
      exact le_add_of_nonneg_right h6
    · rw [hquant]
      have h8 := add_le_add_left h7 (s.get ⟨i, hilt⟩)
      have h9 : s.get ⟨i, hilt⟩ + (b - s.get ⟨i, hilt⟩) = b := by ring
      rw [h9] at h8
      exact h8

/-- The bottom-tail mean, the overall mean, and the top-tail mean are in
ascending order. -/
theorem flop_le_meanD_le_top (U : List ℚ) (hne : U ≠ []) :
    x_i_flop10 U ≤ meanD U ∧ meanD U ≤ x_i_top25 U := by
  constructor
  · exact meanD_filter_le_meanD U (quantile (1/10) U)
      (quantile_bounds (1/10) U hne (by norm_num) (by norm_num)).1
  · exact meanD_le_meanD_filter_ge U (quantile (3/4) U)
      (quantile_bounds (3/4) U hne (by norm_num) (by norm_num)).2

theorem sum_map_sub_div (U : List ℚ) (b d : ℚ) :
    (U.map (fun u => (u - b) / d)).sum = (U.sum - (U.length : ℚ) * b) / d := by
  induction U with
  | nil => simp
  | cons x t ih =>
    simp only [List.map_cons, List.sum_cons, ih, List.length_cons]
    push_cast
    ring

/-- Score bounds for `impactCore`: a returned score always lies in
`[0, 100·m]` where `m` is the number of dropna'd uplifts. -/
theorem impactCore_score_bounds (U : List ℚ) (s : ℚ) (e : Option String)
    (h : impactCore U = (some s, e)) :
    0 ≤ s ∧ s ≤ 100 * (U.length : ℚ) := by
  unfold impactCore at h
  split at h
  · simp only [Prod.mk.injEq] at h
    exact absurd h.1 (by simp)
  · split at h
    · simp only [Prod.mk.injEq] at h
      exact absurd h.1 (by simp)
    · rename_i hne0 hd0
      have hU : U ≠ [] := by simpa [List.isEmpty_iff] using hne0
      simp only [Prod.mk.injEq, Option.some.injEq] at h
      obtain ⟨hs, _⟩ := h
      obtain ⟨hmb, hmt⟩ := flop_le_meanD_le_top U hU
      have hd_nonneg : 0 ≤ denominatorOf U := by
        unfold denominatorOf
        linarith
      have hdpos : 0 < denominatorOf U :=
        lt_of_le_of_ne hd_nonneg (Ne.symm hd0)
      have hlenpos : 0 < (U.length : ℚ) := by
        exact_mod_cast List.length_pos.mpr hU
      have hlow : (U.length : ℚ) * x_i_flop10 U ≤ U.sum := by
        have := hmb
        unfold meanD at this
        rw [le_div_iff hlenpos] at this
        linarith
      have hhigh : U.sum ≤ (U.length : ℚ) * x_i_top25 U := by
        have := hmt
        unfold meanD at this
        rw [div_le_iff hlenpos] at this
        linarith
      rw [sum_map_sub_div] at hs
      have hden : x_i_top25 U - x_i_flop10 U = denominatorOf U := rfl
      constructor
      · rw [← hs]
        have hnum : 0 ≤ U.sum - (U.length : ℚ) * x_i_flop10 U := by linarith
        positivity
      · rw [← hs]
        have hfrac : (U.sum - (U.length : ℚ) * x_i_flop10 U) / denominatorOf U
            ≤ (U.length : ℚ) := by
          rw [div_le_iff hdpos]
          unfold denominatorOf
          nlinarith
        linarith

/-! ## Claim C9: the score range -/

/-- The C9 counterexample table: Control KPIs 2, 4, 6 (average 4) and
Exposed KPIs 4, 8, 9 (uplifts 0, 4, 5), giving score 180. -/
def df9 : DataFrame :=
  ⟨6, [⟨"exp", .strs [some "No", some "No", some "No",
          some "Sí, una vez", some "Sí, una vez", some "Sí, varias veces"]⟩,
       ⟨"kpi", .nums [some 2, some 4, some 6, some 4, some 8, some 9]⟩]⟩

/-- Counterexample to claim C9 as stated: `calculate_impact_score`
returns the score 180 on `df9`, which does not lie in `[0, 100]`. -/
theorem c9_score_exceeds_100 :
    (calculate_impact_score df9 "exp" "kpi").map Prod.snd = some (some 180, none) ∧
    ¬ ((180 : ℚ) ≤ 100) :=
  ⟨by with_unfolding_all rfl, by norm_num⟩

/-- Claim C9 (amended): whenever `calculate_impact_score` returns a
score, the score lies in `[0, 100·m]`, where `m` is the number of
exposed rows with a non-NaN uplift; the upper bound 100 of the original
claim holds only for `m = 1`. -/
theorem c9_score_bounds (df : DataFrame) (a k : String) (dfq : DataFrame)
    (s : ℚ) (e : Option String)
    (h : calculate_impact_score df a k = some (dfq, (some s, e))) :
    0 ≤ s ∧ ∃ ed kv, getCol df a = some ed ∧
      getCol (setCol df "Group" (groupColumn (groupsOf (dataVals ed)))) k
        = some (.nums kv) ∧
      s ≤ 100 * ((upliftList (groupsOf (dataVals ed)) kv).length : ℚ) := by
  unfold calculate_impact_score at h
  split at h
  · cases h
  · rename_i ed hed
    split at h
    · rename_i kv hkv
      simp only [Option.some.injEq, Prod.mk.injEq] at h
      obtain ⟨h1, h2⟩ := h
      obtain ⟨hs0, hsU⟩ := impactCore_score_bounds
        (upliftList (groupsOf (dataVals ed)) kv) s e h2
      refine ⟨hs0, ed, kv, hed, hkv, ?_⟩
      linarith
    · cases h
    · cases h

/-- The exposure column of the C9 witness table. -/
def edC9 : ColData :=
  .strs [some "No", some "No", some "No", some "Sí, una vez", some "Sí, una vez"]

/-- The C9 witness table (the §4.2 scenario: score 100 from 2 uplifts). -/
def df9w : DataFrame :=
  ⟨5, [⟨"exp", edC9⟩, ⟨"kpi", .nums [some 2, some 4, some 6, some 5, some 9]⟩]⟩

theorem c9_score_bounds_witness :
    0 ≤ (100 : ℚ) ∧ ∃ ed kv, getCol df9w "exp" = some ed ∧
      getCol (setCol df9w "Group" (groupColumn (groupsOf (dataVals ed)))) "kpi"
        = some (.nums kv) ∧
      (100 : ℚ) ≤ 100 * ((upliftList (groupsOf (dataVals ed)) kv).length : ℚ) :=
  c9_score_bounds df9w "exp" "kpi"
    (setCol df9w "Group" (groupColumn (groupsOf (dataVals edC9))))
    100 none (by with_unfolding_all rfl)

end BLSDash